import Mathlib

/-!
Verification of the administrative command executor in
`src/server/lib/firebase-admin.ts` (class `FirebaseAdminService`).

The Firestore document store is embedded as explicit state: each logical
collection (`users`, `licenses`, `admin_logs`, and the singleton
`maintenance` config document) is a field of a `DB` record, and every
command of the executor is a function `... → DB → Except AdminError α × DB`
returning both the outcome (normal value or thrown error) and the resulting
store.  JavaScript's absent-or-null document fields are embedded as
`Option`; JS truthiness tests on them are translated at each use site
exactly as the source performs them.  The external identity-token verifier
and the possibility of a failing `admin_logs` write are supplied by an
`Env` record.
-/

/-- A Firestore-storable JSON-like value, as used for the free-form `data`
payload of audit log entries. -/
inductive JVal where
  | str (s : String)
  | num (n : Int)
  | jsBool (b : Bool)
  | jnull
  | arr (xs : List String)
deriving DecidableEq, Repr

/-- JavaScript truthiness of a stored value, used to translate `v || d`. -/
def jTruthy : JVal → Bool
  | .str s => s ≠ ""
  | .num n => n ≠ 0
  | .jsBool b => b
  | .jnull => false
  | .arr _ => true

/-- Translation of `s || dflt` for an optional string field (`undefined`,
`null` and `""` are falsy). -/
def jsOrStr (v : Option String) (dflt : String) : String :=
  match v with
  | some s => if s = "" then dflt else s
  | none => dflt

/-- One document of the `users` collection.  Every field is optional, as in
the loosely typed source documents. -/
structure UserDoc where
  email : Option String := none
  displayName : Option String := none
  plan : Option String := none
  isAdmin : Option Bool := none
  isBanned : Option Bool := none
  messagesUsed : Option Nat := none
  messagesLimit : Option Nat := none
  createdAt : Option Nat := none
  bannedAt : Option Nat := none
  bannedBy : Option String := none
  banReason : Option String := none
  lastMessageReset : Option Nat := none
deriving DecidableEq, Repr

/-- One document of the `licenses` collection. -/
structure LicenseDoc where
  plan : Option String := none
  valid : Option Bool := none
  usedBy : Option String := none
  usedAt : Option Nat := none
  createdAt : Option Nat := none
  createdBy : Option String := none
  validityDays : Option Int := none
deriving DecidableEq, Repr

/-- The nested `iaService` / `licenseService` flag inside the maintenance
config document. -/
structure ServiceFlag where
  enabled : Option Bool := none
  message : Option String := none
  enabledAt : Option Nat := none
  enabledBy : Option String := none
deriving DecidableEq, Repr

/-- The nested `plannedMaintenance` descriptor. -/
structure PlannedFlag where
  enabled : Option Bool := none
  scheduledAt : Option String := none
  message : Option String := none
  scheduledBy : Option String := none
deriving DecidableEq, Repr

/-- The singleton `config/maintenance` document. -/
structure MaintenanceDoc where
  isGlobalMaintenance : Option Bool := none
  message : Option String := none
  enabledAt : Option Nat := none
  enabledBy : Option String := none
  partialServices : Option (List String) := none
  iaService : Option ServiceFlag := none
  licenseService : Option ServiceFlag := none
  plannedMaintenance : Option PlannedFlag := none
deriving DecidableEq, Repr

/-- One entry of the append-only `admin_logs` collection.  `timestamp` is
the server-assigned write time in epoch milliseconds. -/
structure LogEntry where
  adminUid : String
  action : String
  data : List (String × JVal)
  timestamp : Nat
  ipAddress : JVal
deriving DecidableEq, Repr

/-- The Firestore state visible to the executor. -/
structure DB where
  users : List (String × UserDoc) := []
  licenses : List (String × LicenseDoc) := []
  adminLogs : List LogEntry := []
  maintenance : Option MaintenanceDoc := none
deriving DecidableEq, Repr

/-- External environment of one command: SDK initialization state, the
identity-token verifier, whether the `admin_logs` append fails (the one
store write the source guards with try/catch), and the current time. -/
structure Env where
  dbInit : Bool
  authInit : Bool
  verifyIdToken : String → Option String
  logAddFails : Bool
  now : Nat

/-- The distinct `Error` values thrown by the source, one constructor per
distinct message. -/
inductive AdminError where
  | notInitialized
  | invalidCredential
  | notAuthorized
  | userNotFound
  | cannotBanAdmin
  | cannotDeleteAdmin
  | licenseNotFound
  | storeFailure
deriving DecidableEq, Repr

/-- The message carried by each thrown error in the source. -/
def AdminError.message : AdminError → String
  | .notInitialized => "Firebase Admin SDK not initialized"
  | .invalidCredential => "Invalid ID token"
  | .notAuthorized => "Unauthorized: Not an admin"
  | .userNotFound => "User not found"
  | .cannotBanAdmin => "Cannot ban admin users"
  | .cannotDeleteAdmin => "Cannot delete admin users"
  | .licenseNotFound => "License not found"
  | .storeFailure => "Firestore write failed"

/-- Lookup of a document by id in a collection. -/
def lookupDoc {α : Type} : List (String × α) → String → Option α
  | [], _ => none
  | (k, v) :: rest, key => if k = key then some v else lookupDoc rest key

/-- Upsert of a document by id (Firestore `set` / `update` on an existing
document replace that document's stored value). -/
def setDoc {α : Type} : List (String × α) → String → α → List (String × α)
  | [], key, v => [(key, v)]
  | (k, v') :: rest, key, v =>
    if k = key then (key, v) :: rest else (k, v') :: setDoc rest key v

/-- The log entry built by `logAdminAction`: payload stored as-is,
server-assigned timestamp, `ipAddress: data.ipAddress || "unknown"`. -/
def mkLogEntry (env : Env) (adminUid action : String)
    (data : List (String × JVal)) : LogEntry :=
  { adminUid := adminUid, action := action, data := data,
    timestamp := env.now,
    ipAddress :=
      match List.lookup "ipAddress" data with
      | some v => if jTruthy v then v else .str "unknown"
      | none => .str "unknown" }

/-- The raw `admin_logs.add` store call, which can fail. -/
def adminLogsAdd (env : Env) (db : DB) (e : LogEntry) : Except AdminError DB :=
  if env.logAddFails then .error .storeFailure
  else .ok { db with adminLogs := db.adminLogs ++ [e] }

/-- `FirebaseAdminService.logAdminAction`: returns silently when the store
handle is null, and catches any failure of the append. -/
def logAdminAction (env : Env) (adminUid action : String)
    (data : List (String × JVal)) (db : DB) : Except AdminError Unit × DB :=
  if !env.dbInit then (.ok (), db)
  else
    match adminLogsAdd env db (mkLogEntry env adminUid action data) with
    | .ok db2 => (.ok (), db2)
    | .error _ => (.ok (), db)

/-- Sequencing of a command's result after its trailing audit call: the
command returns `res` if the audit call returned, and rethrows otherwise. -/
def afterLog {α : Type} (res : α) (p : Except AdminError Unit × DB) :
    Except AdminError α × DB :=
  match p with
  | (.ok _, db) => (.ok res, db)
  | (.error e, db) => (.error e, db)

/-- `FirebaseAdminService.verifyAdmin`: token verification, user lookup,
admin check; on denial one best-effort `UNAUTHORIZED_ADMIN_ACCESS` audit
write, then the `Unauthorized: Not an admin` error. -/
def verifyAdmin (env : Env) (idToken : String) (db : DB) :
    Except AdminError String × DB :=
  if !env.authInit || !env.dbInit then (.error .notInitialized, db)
  else
    match env.verifyIdToken idToken with
    | none => (.error .invalidCredential, db)
    | some uid =>
      let denied : Except AdminError String × DB :=
        (.error .notAuthorized,
         (logAdminAction env uid "UNAUTHORIZED_ADMIN_ACCESS"
           [("reason", .str "Not an admin")] db).2)
      match lookupDoc db.users uid with
      | none => denied
      | some u => if u.isAdmin = some true then (.ok uid, db) else denied

/-- The plan union type of the source. -/
inductive Plan where
  | Free
  | Classic
  | Pro
deriving DecidableEq, Repr

/-- The string the source stores for each plan. -/
def Plan.name : Plan → String
  | .Free => "Free"
  | .Classic => "Classic"
  | .Pro => "Pro"

/-- The `planLimits` table of `updateUserPlan`. -/
def planLimits : Plan → Nat
  | .Free => 10
  | .Classic => 100
  | .Pro => 1000

/-- `FirebaseAdminService.updateUserPlan`. -/
def updateUserPlan (env : Env) (adminUid userId : String) (plan : Plan)
    (db : DB) : Except AdminError Unit × DB :=
  if !env.dbInit then (.error .notInitialized, db)
  else
    match lookupDoc db.users userId with
    | none => (.error .userNotFound, db)
    | some u =>
      let u2 := { u with plan := some plan.name,
                         messagesLimit := some (planLimits plan) }
      afterLog ()
        (logAdminAction env adminUid "UPDATE_USER_PLAN"
          [("targetUser", .str userId), ("newPlan", .str plan.name)]
          { db with users := setDoc db.users userId u2 })

/-- `FirebaseAdminService.banUser`. -/
def banUser (env : Env) (adminUid userId reason : String) (db : DB) :
    Except AdminError Unit × DB :=
  if !env.dbInit then (.error .notInitialized, db)
  else
    match lookupDoc db.users userId with
    | none => (.error .userNotFound, db)
    | some u =>
      if u.isAdmin = some true then (.error .cannotBanAdmin, db)
      else
        let u2 := { u with isBanned := some true, bannedAt := some env.now,
                           bannedBy := some adminUid,
                           banReason := some reason }
        afterLog ()
          (logAdminAction env adminUid "BAN_USER"
            [("targetUser", .str userId), ("reason", .str reason)]
            { db with users := setDoc db.users userId u2 })

/-- The base-36 digit characters produced by `Number.prototype.toString(36)`. -/
def base36Chars : List Char := "0123456789abcdefghijklmnopqrstuvwxyz".data

/-- Membership in the base-36 digit alphabet. -/
def isBase36Digit (c : Char) : Bool := base36Chars.contains c

/-- The uppercase alphanumeric alphabet of the documented license-key
suffix format. -/
def upperAlnumChars : List Char := "0123456789ABCDEFGHIJKLMNOPQRSTUVWXYZ".data

/-- Membership in the uppercase alphanumeric alphabet. -/
def isUpperAlnum (c : Char) : Bool := upperAlnumChars.contains c

/-- The character sequence of `Math.random().toString(36)`: `"0"`, or `"0."`
followed by at least one base-36 digit. -/
def isJsRandomBase36 (s : String) : Bool :=
  match s.data with
  | ['0'] => true
  | '0' :: '.' :: d :: ds => (d :: ds).all isBase36Digit
  | _ => false

/-- JavaScript `String.prototype.substr(start, len)` on an ASCII string. -/
def jsSubstr (s : String) (start len : Nat) : String :=
  ⟨(s.data.drop start).take len⟩

/-- JavaScript `String.prototype.toUpperCase()` on an ASCII string. -/
def jsToUpperCase (s : String) : String :=
  ⟨s.data.map Char.toUpper⟩

/-- The license-key suffix: `Math.random().toString(36).substr(2, 9).toUpperCase()`. -/
def licenseSuffix (rand : String) : String :=
  jsToUpperCase (jsSubstr rand 2 9)

/-- The generated license key, as a function of `Date.now()` and of the
base-36 rendering of the `Math.random()` draw. -/
def mkLicenseKey (now : Nat) (rand : String) : String :=
  "LIC-" ++ toString now ++ "-" ++ licenseSuffix rand

/-- `FirebaseAdminService.createLicense`. -/
def createLicense (env : Env) (rand : String) (adminUid : String) (plan : Plan)
    (validityDays : Int) (db : DB) : Except AdminError String × DB :=
  if !env.dbInit then (.error .notInitialized, db)
  else
    let key := mkLicenseKey env.now rand
    let doc : LicenseDoc :=
      { plan := some plan.name, valid := some true,
        createdAt := some env.now, createdBy := some adminUid,
        validityDays := some validityDays }
    afterLog key
      (logAdminAction env adminUid "CREATE_LICENSE"
        [("licenseKey", .str key), ("plan", .str plan.name),
         ("validityDays", .num validityDays)]
        { db with licenses := setDoc db.licenses key doc })

/-- The per-license view returned by `getAllLicenses`. -/
structure LicenseView where
  key : String
  plan : String
  valid : Bool
  usedBy : Option String
  usedAt : Option Nat
  createdAt : Option Nat
  createdBy : Option String
  validityDays : Option Int
deriving DecidableEq, Repr

/-- The field defaults `getAllLicenses` applies to one stored license
document (`plan || "Free"`, `valid !== false`, `usedBy || null`). -/
def licenseView (k : String) (d : LicenseDoc) : LicenseView :=
  { key := k, plan := jsOrStr d.plan "Free", valid := !(d.valid == some false),
    usedBy := match d.usedBy with
              | some s => if s = "" then none else some s
              | none => none,
    usedAt := d.usedAt, createdAt := d.createdAt, createdBy := d.createdBy,
    validityDays := d.validityDays }

/-- `FirebaseAdminService.getAllLicenses`. -/
def getAllLicenses (env : Env) (limit : Nat) (db : DB) :
    Except AdminError (List LicenseView) × DB :=
  if !env.dbInit then (.error .notInitialized, db)
  else
    (.ok ((db.licenses.take limit).map (fun p => licenseView p.1 p.2)), db)

/-- The aggregate record returned by `getSystemStats` (the static
placeholder health figures of the source are constants and are omitted). -/
structure SystemStats where
  totalUsers : Nat
  totalAdmins : Nat
  bannedUsers : Nat
  activeLicenses : Nat
deriving DecidableEq, Repr

/-- `FirebaseAdminService.getSystemStats`. -/
def getSystemStats (env : Env) (db : DB) : Except AdminError SystemStats × DB :=
  if !env.dbInit then (.error .notInitialized, db)
  else
    (.ok { totalUsers := db.users.length,
           totalAdmins :=
             (db.users.filter (fun p => p.2.isAdmin.getD false)).length,
           bannedUsers :=
             (db.users.filter (fun p => p.2.isBanned.getD false)).length,
           activeLicenses :=
             (db.licenses.filter (fun p => !(p.2.valid == some false))).length },
     db)

/-- `FirebaseAdminService.purgeInvalidLicenses`: snapshot of the documents
matching `valid == false`, batch delete, audit, return the count. -/
def purgeInvalidLicenses (env : Env) (adminUid : String) (db : DB) :
    Except AdminError Nat × DB :=
  if !env.dbInit then (.error .notInitialized, db)
  else
    let matched := db.licenses.filter (fun p => p.2.valid == some false)
    afterLog matched.length
      (logAdminAction env adminUid "PURGE_LICENSES"
        [("count", .num matched.length)]
        { db with
            licenses := db.licenses.filter (fun p => !(p.2.valid == some false)) })

/-- Milliseconds per day, the unit of the `daysOld` cutoff. -/
def msPerDay : Nat := 86400000

/-- `FirebaseAdminService.clearOldLogs`: snapshot of the entries strictly
older than the cutoff, batch delete, one summarizing audit entry, return
the count. -/
def clearOldLogs (env : Env) (adminUid : String) (daysOld : Nat) (db : DB) :
    Except AdminError Nat × DB :=
  if !env.dbInit then (.error .notInitialized, db)
  else
    let cutoff := env.now - daysOld * msPerDay
    let matched := db.adminLogs.filter (fun e => decide (e.timestamp < cutoff))
    afterLog matched.length
      (logAdminAction env adminUid "CLEAR_OLD_LOGS"
        [("daysOld", .num daysOld), ("count", .num matched.length)]
        { db with
            adminLogs :=
              db.adminLogs.filter (fun e => !decide (e.timestamp < cutoff)) })

/-- `FirebaseAdminService.enableGlobalMaintenance`: partial-document merge
into `config/maintenance`. -/
def enableGlobalMaintenance (env : Env) (adminUid : String)
    (message : Option String) (db : DB) : Except AdminError Unit × DB :=
  if !env.dbInit then (.error .notInitialized, db)
  else
    let m := db.maintenance.getD {}
    let m2 := { m with isGlobalMaintenance := some true,
                       message := some (jsOrStr message "System maintenance in progress"),
                       enabledAt := some env.now, enabledBy := some adminUid }
    afterLog ()
      (logAdminAction env adminUid "ENABLE_GLOBAL_MAINTENANCE"
        [("message", match message with | some s => .str s | none => .jnull)]
        { db with maintenance := some m2 })

/-- `FirebaseAdminService.disableGlobalMaintenance`: merges only
`isGlobalMaintenance=false`. -/
def disableGlobalMaintenance (env : Env) (adminUid : String) (db : DB) :
    Except AdminError Unit × DB :=
  if !env.dbInit then (.error .notInitialized, db)
  else
    let m := db.maintenance.getD {}
    afterLog ()
      (logAdminAction env adminUid "DISABLE_GLOBAL_MAINTENANCE" []
        { db with maintenance := some { m with isGlobalMaintenance := some false } })

/-- `FirebaseAdminService.enablePartialMaintenance`. -/
def enablePartialMaintenance (env : Env) (adminUid : String)
    (services : List String) (message : Option String) (db : DB) :
    Except AdminError Unit × DB :=
  if !env.dbInit then (.error .notInitialized, db)
  else
    let m := db.maintenance.getD {}
    let m2 := { m with partialServices := some services,
                       message := some (jsOrStr message "Some services are under maintenance"),
                       enabledAt := some env.now, enabledBy := some adminUid }
    afterLog ()
      (logAdminAction env adminUid "ENABLE_PARTIAL_MAINTENANCE"
        [("services", .arr services),
         ("message", match message with | some s => .str s | none => .jnull)]
        { db with maintenance := some m2 })

/-- `FirebaseAdminService.disablePartialMaintenance`: merges only
`partialServices=[]` (an array value replaces the stored array wholesale). -/
def disablePartialMaintenance (env : Env) (adminUid : String) (db : DB) :
    Except AdminError Unit × DB :=
  if !env.dbInit then (.error .notInitialized, db)
  else
    let m := db.maintenance.getD {}
    afterLog ()
      (logAdminAction env adminUid "DISABLE_PARTIAL_MAINTENANCE" []
        { db with maintenance := some { m with partialServices := some ([] : List String) } })

/-- `FirebaseAdminService.enableIAMaintenance`: merges a fully populated
nested `iaService` map with `enabled=false` (service unavailable). -/
def enableIAMaintenance (env : Env) (adminUid : String)
    (message : Option String) (db : DB) : Except AdminError Unit × DB :=
  if !env.dbInit then (.error .notInitialized, db)
  else
    let m := db.maintenance.getD {}
    let sub : ServiceFlag :=
      { enabled := some false,
        message := some (jsOrStr message "AI service is under maintenance"),
        enabledAt := some env.now, enabledBy := some adminUid }
    afterLog ()
      (logAdminAction env adminUid "ENABLE_IA_MAINTENANCE"
        [("message", match message with | some s => .str s | none => .jnull)]
        { db with maintenance := some { m with iaService := some sub } })

/-- `FirebaseAdminService.disableIAMaintenance`: deep-merges only
`iaService.enabled=true` (service available), preserving the other nested
fields. -/
def disableIAMaintenance (env : Env) (adminUid : String) (db : DB) :
    Except AdminError Unit × DB :=
  if !env.dbInit then (.error .notInitialized, db)
  else
    let m := db.maintenance.getD {}
    let sub := m.iaService.getD {}
    afterLog ()
      (logAdminAction env adminUid "DISABLE_IA_MAINTENANCE" []
        { db with maintenance := some { m with iaService := some { sub with enabled := some true } } })

/-- `FirebaseAdminService.enableLicenseMaintenance`. -/
def enableLicenseMaintenance (env : Env) (adminUid : String)
    (message : Option String) (db : DB) : Except AdminError Unit × DB :=
  if !env.dbInit then (.error .notInitialized, db)
  else
    let m := db.maintenance.getD {}
    let sub : ServiceFlag :=
      { enabled := some false,
        message := some (jsOrStr message "License service is under maintenance"),
        enabledAt := some env.now, enabledBy := some adminUid }
    afterLog ()
      (logAdminAction env adminUid "ENABLE_LICENSE_MAINTENANCE"
        [("message", match message with | some s => .str s | none => .jnull)]
        { db with maintenance := some { m with licenseService := some sub } })

/-- `FirebaseAdminService.disableLicenseMaintenance`. -/
def disableLicenseMaintenance (env : Env) (adminUid : String) (db : DB) :
    Except AdminError Unit × DB :=
  if !env.dbInit then (.error .notInitialized, db)
  else
    let m := db.maintenance.getD {}
    let sub := m.licenseService.getD {}
    afterLog ()
      (logAdminAction env adminUid "DISABLE_LICENSE_MAINTENANCE" []
        { db with maintenance := some { m with licenseService := some { sub with enabled := some true } } })

/-! ### Basic lemmas about the audit logger and the store helpers -/

/-- The audit logger returns normally under every environment: both the
uninitialized-store early return and a failing append are swallowed. -/
theorem logAdminAction_fst (env : Env) (a act : String)
    (d : List (String × JVal)) (db : DB) :
    (logAdminAction env a act d db).1 = .ok () := by
  simp only [logAdminAction, adminLogsAdd]
  cases env.dbInit <;> cases env.logAddFails <;> simp

/-- The audit logger touches only the `admin_logs` collection. -/
theorem logAdminAction_users (env : Env) (a act : String)
    (d : List (String × JVal)) (db : DB) :
    (logAdminAction env a act d db).2.users = db.users := by
  simp only [logAdminAction, adminLogsAdd]
  cases env.dbInit <;> cases env.logAddFails <;> simp

/-- The audit logger touches only the `admin_logs` collection. -/
theorem logAdminAction_licenses (env : Env) (a act : String)
    (d : List (String × JVal)) (db : DB) :
    (logAdminAction env a act d db).2.licenses = db.licenses := by
  simp only [logAdminAction, adminLogsAdd]
  cases env.dbInit <;> cases env.logAddFails <;> simp

/-- The audit logger touches only the `admin_logs` collection. -/
theorem logAdminAction_maintenance (env : Env) (a act : String)
    (d : List (String × JVal)) (db : DB) :
    (logAdminAction env a act d db).2.maintenance = db.maintenance := by
  simp only [logAdminAction, adminLogsAdd]
  cases env.dbInit <;> cases env.logAddFails <;> simp

/-- On an initialized store with a succeeding append, the audit logger
appends exactly one entry. -/
theorem logAdminAction_logs_append (env : Env) (a act : String)
    (d : List (String × JVal)) (db : DB)
    (h1 : env.dbInit = true) (h2 : env.logAddFails = false) :
    (logAdminAction env a act d db).2.adminLogs =
      db.adminLogs ++ [mkLogEntry env a act d] := by
  simp [logAdminAction, adminLogsAdd, h1, h2]

/-- A command's trailing audit call never changes the command's result,
because the logger never throws. -/
theorem afterLog_eq {α : Type} (res : α) (env : Env) (a act : String)
    (d : List (String × JVal)) (db : DB) :
    afterLog res (logAdminAction env a act d db) =
      (.ok res, (logAdminAction env a act d db).2) := by
  have h := logAdminAction_fst env a act d db
  rcases hp : logAdminAction env a act d db with ⟨r, db2⟩
  rw [hp] at h
  simp only at h
  subst h
  simp [afterLog]

/-- Reading back a freshly written document. -/
theorem lookup_setDoc {α : Type} (l : List (String × α)) (k : String) (v : α) :
    lookupDoc (setDoc l k v) k = some v := by
  induction l with
  | nil => simp [setDoc, lookupDoc]
  | cons p rest ih =>
    rcases p with ⟨k', v'⟩
    by_cases h : k' = k <;> simp [setDoc, lookupDoc, h, ih]

/-! ### Concrete fixtures used by the witnesses -/

/-- A fully initialized environment whose verifier accepts the token
`"tok"` as subject `"u1"` and whose log appends succeed. -/
def sampleEnv : Env :=
  { dbInit := true, authInit := true,
    verifyIdToken := fun t => if t = "tok" then some "u1" else none,
    logAddFails := false, now := 1700000000000 }

/-- Same environment, but every `admin_logs` append fails. -/
def sampleEnvLogFail : Env := { sampleEnv with logAddFails := true }

/-- An admin user record. -/
def aliceAdmin : UserDoc := { isAdmin := some true }

/-- A plain non-admin user record. -/
def bobUser : UserDoc := { email := some "bob@example.com" }

/-- A user record with `isAdmin` explicitly false, keyed as `"u1"` below. -/
def carolUser : UserDoc := { isAdmin := some false }

/-- A fully populated maintenance document. -/
def sampleMaint : MaintenanceDoc :=
  { isGlobalMaintenance := some true, message := some "maint",
    enabledAt := some 5, enabledBy := some "admin1",
    partialServices := some ["chat"],
    iaService := some { enabled := some false, message := some "ai down" },
    licenseService := some { enabled := some true },
    plannedMaintenance := some { enabled := some true, scheduledAt := some "soon" } }

/-- A populated store: three users, licenses in the three `valid` states,
one old log entry, and a fully populated maintenance document. -/
def sampleDB : DB :=
  { users := [("admin1", aliceAdmin), ("bob", bobUser), ("u1", carolUser)],
    licenses := [("K1", { valid := none }),
                 ("K2", { valid := some false }),
                 ("K3", { valid := some true })],
    adminLogs := [],
    maintenance := some sampleMaint }

/-- A store whose `users` collection has no record for the subject `"u1"`. -/
def missingUserDB : DB := { users := [("bob", bobUser)] }

/-- A license document with no `valid` field. -/
def licAbsent : LicenseDoc := { valid := none }

/-- An old log entry, far older than any cutoff used below. -/
def oldLog : LogEntry :=
  { adminUid := "admin1", action := "BAN_USER", data := [],
    timestamp := 5, ipAddress := .str "unknown" }

/-- A log entry whose timestamp sits exactly on the 30-day cutoff of
`sampleEnv.now`. -/
def boundaryLog : LogEntry :=
  { adminUid := "admin1", action := "UNBAN_USER", data := [],
    timestamp := 1700000000000 - 30 * msPerDay, ipAddress := .str "unknown" }

/-- A store holding one stale and one boundary log entry. -/
def logsDB : DB := { adminLogs := [oldLog, boundaryLog] }

/-- The `activeLicenses` aggregate of a `getSystemStats` outcome. -/
def statsActive (r : Except AdminError SystemStats × DB) : Option Nat :=
  match r.1 with
  | .ok s => some s.activeLicenses
  | .error _ => none

/-- The documented license-key format, exactly as the specification words
it: a `LIC-` head, a nonempty decimal timestamp, and an exactly 9-character
uppercase alphanumeric suffix. -/
def claimedLicenseKeyFormat (key : String) : Prop :=
  ∃ ts suf : String, key = "LIC-" ++ ts ++ "-" ++ suf ∧
    ts.data ≠ [] ∧ (∀ c ∈ ts.data, c.isDigit = true) ∧
    suf.length = 9 ∧ (∀ c ∈ suf.data, isUpperAlnum c = true)

/-! ### Claim theorems -/

/-- C1: banning a target whose record has `isAdmin=true` fails with the
`Cannot ban admin users` invariant error and leaves the store untouched;
banning an existing non-admin target always succeeds (under every
environment, including a failing audit append) and sets `isBanned=true`, a
non-null `bannedAt`, `bannedBy` to the acting admin uid and `banReason` to
the supplied reason. -/
theorem banUser_admin_guard_and_success (env : Env) (db : DB)
    (adminUid userId reason : String) (u : UserDoc)
    (hinit : env.dbInit = true) (hu : lookupDoc db.users userId = some u) :
    (u.isAdmin = some true →
      banUser env adminUid userId reason db = (.error .cannotBanAdmin, db)) ∧
    (u.isAdmin ≠ some true →
      (banUser env adminUid userId reason db).1 = .ok () ∧
      lookupDoc (banUser env adminUid userId reason db).2.users userId =
        some { u with isBanned := some true, bannedAt := some env.now,
                      bannedBy := some adminUid, banReason := some reason }) := by
  constructor
  · intro h
    simp [banUser, hinit, hu, h]
  · intro h
    constructor
    · simp [banUser, hinit, hu, h, afterLog_eq]
    · simp [banUser, hinit, hu, h, afterLog_eq, logAdminAction_users,
            lookup_setDoc]

/-- Witness for C1 at concrete inputs: banning the non-admin `bob`
succeeds, banning the admin `admin1` fails with the invariant error and
leaves the store unchanged. -/
theorem banUser_admin_guard_and_success_witness :
    (banUser sampleEnv "admin1" "bob" "spam" sampleDB).1 = .ok () ∧
    banUser sampleEnv "admin1" "admin1" "x" sampleDB =
      (.error .cannotBanAdmin, sampleDB) :=
  ⟨((banUser_admin_guard_and_success sampleEnv sampleDB "admin1" "bob" "spam"
      bobUser rfl (by decide)).2 (by decide)).1,
   (banUser_admin_guard_and_success sampleEnv sampleDB "admin1" "admin1" "x"
      aliceAdmin rfl (by decide)).1 rfl⟩

/-- C5: for every existing user and every plan, `updateUserPlan` sets the
user's plan and sets `messagesLimit` to exactly 10 for Free, 100 for
Classic, 1000 for Pro. -/
theorem updateUserPlan_limits (env : Env) (db : DB)
    (adminUid userId : String) (p : Plan) (u : UserDoc)
    (hinit : env.dbInit = true) (hu : lookupDoc db.users userId = some u) :
    (updateUserPlan env adminUid userId p db).1 = .ok () ∧
    lookupDoc (updateUserPlan env adminUid userId p db).2.users userId =
      some { u with plan := some p.name,
                    messagesLimit := some (match p with
                                           | Plan.Free => 10
                                           | Plan.Classic => 100
                                           | Plan.Pro => 1000) } := by
  cases p <;>
    exact ⟨by simp [updateUserPlan, hinit, hu, afterLog_eq],
           by simp [updateUserPlan, hinit, hu, afterLog_eq,
                    logAdminAction_users, lookup_setDoc, planLimits]⟩

/-- Witness for C5 at concrete inputs: upgrading `bob` to `Classic` yields
`messagesLimit = 100`. -/
theorem updateUserPlan_limits_witness :
    lookupDoc (updateUserPlan sampleEnv "admin1" "bob" Plan.Classic sampleDB).2.users "bob" =
      some { bobUser with plan := some "Classic", messagesLimit := some 100 } :=
  (updateUserPlan_limits sampleEnv sampleDB "admin1" "bob" Plan.Classic
    bobUser rfl (by decide)).2

/-- C2: `verifyAdmin` with a valid credential whose subject's record exists
with a non-admin `isAdmin` fails with the `NotAuthorized` error and writes
exactly one `UNAUTHORIZED_ADMIN_ACCESS` audit entry for that subject before
returning the error. -/
theorem verifyAdmin_unauthorized_audit (env : Env) (db : DB)
    (tok uid : String) (u : UserDoc)
    (hauth : env.authInit = true) (hdb : env.dbInit = true)
    (htok : env.verifyIdToken tok = some uid)
    (hu : lookupDoc db.users uid = some u) (hna : u.isAdmin ≠ some true)
    (hlog : env.logAddFails = false) :
    (verifyAdmin env tok db).1 = .error .notAuthorized ∧
    (verifyAdmin env tok db).2.adminLogs =
      db.adminLogs ++
        [mkLogEntry env uid "UNAUTHORIZED_ADMIN_ACCESS"
          [("reason", .str "Not an admin")]] ∧
    ((verifyAdmin env tok db).2.adminLogs.filter
        (fun e => e.action == "UNAUTHORIZED_ADMIN_ACCESS" && e.adminUid == uid)).length =
      (db.adminLogs.filter
        (fun e => e.action == "UNAUTHORIZED_ADMIN_ACCESS" && e.adminUid == uid)).length + 1 := by
  have hlogs : (verifyAdmin env tok db).2.adminLogs =
      db.adminLogs ++
        [mkLogEntry env uid "UNAUTHORIZED_ADMIN_ACCESS"
          [("reason", .str "Not an admin")]] := by
    simp [verifyAdmin, hauth, hdb, htok, hu, hna,
          logAdminAction_logs_append _ _ _ _ _ hdb hlog]
  refine ⟨?_, hlogs, ?_⟩
  · simp [verifyAdmin, hauth, hdb, htok, hu, hna]
  · rw [hlogs, List.filter_append, List.length_append]
    simp [mkLogEntry]

/-- Witness for C2 at concrete inputs: the subject `"u1"` exists with
`isAdmin=false`, the call is denied and one matching audit entry is
appended to the empty log. -/
theorem verifyAdmin_unauthorized_audit_witness :
    (verifyAdmin sampleEnv "tok" sampleDB).1 = .error .notAuthorized ∧
    ((verifyAdmin sampleEnv "tok" sampleDB).2.adminLogs.filter
        (fun e => e.action == "UNAUTHORIZED_ADMIN_ACCESS" && e.adminUid == "u1")).length =
      (sampleDB.adminLogs.filter
        (fun e => e.action == "UNAUTHORIZED_ADMIN_ACCESS" && e.adminUid == "u1")).length + 1 :=
  ⟨(verifyAdmin_unauthorized_audit sampleEnv sampleDB "tok" "u1" carolUser
      rfl rfl (by decide) (by decide) (by decide) rfl).1,
   (verifyAdmin_unauthorized_audit sampleEnv sampleDB "tok" "u1" carolUser
      rfl rfl (by decide) (by decide) (by decide) rfl).2.2⟩

/-- C3 counterexample: with a valid credential whose subject `"u1"` has no
user record at all, `verifyAdmin` fails with the same
`Unauthorized: Not an admin` error as the existing-non-admin case, not with
the distinct `User not found` error the other commands use for a missing
target. -/
theorem verifyAdmin_missing_user_counterexample :
    (verifyAdmin sampleEnv "tok" missingUserDB).1 = .error .notAuthorized ∧
    (verifyAdmin sampleEnv "tok" missingUserDB).1 ≠ .error .userNotFound ∧
    (verifyAdmin sampleEnv "tok" missingUserDB).1 =
      (verifyAdmin sampleEnv "tok" sampleDB).1 ∧
    AdminError.notAuthorized.message = "Unauthorized: Not an admin" := by
  have h1 : (verifyAdmin sampleEnv "tok" missingUserDB).1 =
      Except.error AdminError.notAuthorized := rfl
  refine ⟨h1, ?_, rfl, rfl⟩
  rw [h1]
  simp

/-- C3 amended: `verifyAdmin` with a valid credential whose subject has no
user record fails with the `NotAuthorized` error — the same error as for an
existing non-admin subject, so the two cases are not distinguishable — and
writes one `UNAUTHORIZED_ADMIN_ACCESS` audit entry for that subject. -/
theorem verifyAdmin_missing_user_same_error (env : Env) (db : DB)
    (tok uid : String)
    (hauth : env.authInit = true) (hdb : env.dbInit = true)
    (htok : env.verifyIdToken tok = some uid)
    (hu : lookupDoc db.users uid = none) (hlog : env.logAddFails = false) :
    (verifyAdmin env tok db).1 = .error .notAuthorized ∧
    (verifyAdmin env tok db).2.adminLogs =
      db.adminLogs ++
        [mkLogEntry env uid "UNAUTHORIZED_ADMIN_ACCESS"
          [("reason", .str "Not an admin")]] := by
  constructor
  · simp [verifyAdmin, hauth, hdb, htok, hu]
  · simp [verifyAdmin, hauth, hdb, htok, hu,
          logAdminAction_logs_append _ _ _ _ _ hdb hlog]

/-- Witness for the amended C3 at concrete inputs. -/
theorem verifyAdmin_missing_user_same_error_witness :
    (verifyAdmin sampleEnv "tok" missingUserDB).1 = .error .notAuthorized :=
  (verifyAdmin_missing_user_same_error sampleEnv missingUserDB "tok" "u1"
    rfl rfl (by decide) (by decide) rfl).1

/-- C6: enabling AI-service maintenance writes `iaService.enabled=false`,
disabling writes `enabled=true`; enabling license maintenance writes
`licenseService.enabled=false`, disabling writes `enabled=true` (the
inverted-polarity contract). -/
theorem subservice_maintenance_polarity (env : Env) (adminUid : String)
    (msg : Option String) (db : DB) (hinit : env.dbInit = true) :
    ((enableIAMaintenance env adminUid msg db).2.maintenance.bind
        (fun m => m.iaService)).bind (fun s => s.enabled) = some false ∧
    ((disableIAMaintenance env adminUid db).2.maintenance.bind
        (fun m => m.iaService)).bind (fun s => s.enabled) = some true ∧
    ((enableLicenseMaintenance env adminUid msg db).2.maintenance.bind
        (fun m => m.licenseService)).bind (fun s => s.enabled) = some false ∧
    ((disableLicenseMaintenance env adminUid db).2.maintenance.bind
        (fun m => m.licenseService)).bind (fun s => s.enabled) = some true := by
  refine ⟨?_, ?_, ?_, ?_⟩ <;>
    simp [enableIAMaintenance, disableIAMaintenance,
          enableLicenseMaintenance, disableLicenseMaintenance, hinit,
          afterLog_eq, logAdminAction_maintenance]

/-- Witness for C6 at concrete inputs. -/
theorem subservice_maintenance_polarity_witness :
    ((enableIAMaintenance sampleEnv "admin1" none sampleDB).2.maintenance.bind
        (fun m => m.iaService)).bind (fun s => s.enabled) = some false ∧
    ((disableIAMaintenance sampleEnv "admin1" sampleDB).2.maintenance.bind
        (fun m => m.iaService)).bind (fun s => s.enabled) = some true :=
  ⟨(subservice_maintenance_polarity sampleEnv "admin1" none sampleDB rfl).1,
   (subservice_maintenance_polarity sampleEnv "admin1" none sampleDB rfl).2.1⟩

/-- C7: `logAdminAction` returns normally for every environment, store and
payload — an uninitialized store or a failing append is swallowed — and a
failed audit write never undoes or fails the mutation of the invoking
command: even with every log append failing, `banUser` on an existing
non-admin target still succeeds and its user-document update persists. -/
theorem logAdminAction_never_fails (env : Env) (adminUid action : String)
    (data : List (String × JVal)) (db : DB) (userId reason : String)
    (u : UserDoc) :
    (logAdminAction env adminUid action data db).1 = .ok () ∧
    (env.dbInit = true → env.logAddFails = true →
      lookupDoc db.users userId = some u → u.isAdmin ≠ some true →
      (banUser env adminUid userId reason db).1 = .ok () ∧
      lookupDoc (banUser env adminUid userId reason db).2.users userId =
        some { u with isBanned := some true, bannedAt := some env.now,
                      bannedBy := some adminUid, banReason := some reason }) := by
  refine ⟨logAdminAction_fst env adminUid action data db, ?_⟩
  intro hinit _hfail hu hna
  constructor
  · simp [banUser, hinit, hu, hna, afterLog_eq]
  · simp [banUser, hinit, hu, hna, afterLog_eq, logAdminAction_users,
          lookup_setDoc]

/-- Witness for C7 at concrete inputs, under an environment whose every
audit append fails. -/
theorem logAdminAction_never_fails_witness :
    (logAdminAction sampleEnvLogFail "admin1" "BAN_USER" [] sampleDB).1 = .ok () ∧
    (banUser sampleEnvLogFail "admin1" "bob" "spam" sampleDB).1 = .ok () :=
  ⟨(logAdminAction_never_fails sampleEnvLogFail "admin1" "BAN_USER" []
      sampleDB "bob" "spam" bobUser).1,
   ((logAdminAction_never_fails sampleEnvLogFail "admin1" "BAN_USER" []
      sampleDB "bob" "spam" bobUser).2 rfl rfl (by decide) (by decide)).1⟩

/-- C10: `disableGlobalMaintenance` merges only `isGlobalMaintenance=false`
and `disablePartialMaintenance` merges only `partialServices=[]`; every
other field of the maintenance document — message, enabledAt, enabledBy,
the sub-service flags and the planned-maintenance descriptor — is left
exactly as it was. -/
theorem disable_maintenance_frame (env : Env) (adminUid : String) (db : DB)
    (m : MaintenanceDoc) (hinit : env.dbInit = true)
    (hm : db.maintenance = some m) :
    (disableGlobalMaintenance env adminUid db).2.maintenance =
      some { m with isGlobalMaintenance := some false } ∧
    (disablePartialMaintenance env adminUid db).2.maintenance =
      some { m with partialServices := some [] } := by
  constructor <;>
    simp [disableGlobalMaintenance, disablePartialMaintenance, hinit, hm,
          afterLog_eq, logAdminAction_maintenance]

/-- Witness for C10 at concrete inputs: on the fully populated sample
maintenance document, each disable call changes exactly its own field. -/
theorem disable_maintenance_frame_witness :
    (disableGlobalMaintenance sampleEnv "admin1" sampleDB).2.maintenance =
      some { sampleMaint with isGlobalMaintenance := some false } ∧
    (disablePartialMaintenance sampleEnv "admin1" sampleDB).2.maintenance =
      some { sampleMaint with partialServices := some [] } :=
  ⟨(disable_maintenance_frame sampleEnv "admin1" sampleDB sampleMaint rfl rfl).1,
   (disable_maintenance_frame sampleEnv "admin1" sampleDB sampleMaint rfl rfl).2⟩

/-- C8: `clearOldLogs` deletes exactly the entries with
`timestamp < now - daysOld` days (boundary entries are retained), returns
the number deleted, and appends one `CLEAR_OLD_LOGS` audit entry recording
`daysOld` and that count. -/
theorem clearOldLogs_strict_cutoff (env : Env) (adminUid : String)
    (daysOld : Nat) (db : DB)
    (hinit : env.dbInit = true) (hlog : env.logAddFails = false) :
    (clearOldLogs env adminUid daysOld db).1 =
      .ok (db.adminLogs.filter
        (fun e => decide (e.timestamp < env.now - daysOld * msPerDay))).length ∧
    (clearOldLogs env adminUid daysOld db).2.adminLogs =
      db.adminLogs.filter
        (fun e => !decide (e.timestamp < env.now - daysOld * msPerDay)) ++
        [mkLogEntry env adminUid "CLEAR_OLD_LOGS"
          [("daysOld", .num daysOld),
           ("count", .num (db.adminLogs.filter
             (fun e => decide (e.timestamp < env.now - daysOld * msPerDay))).length)]] ∧
    ∀ e ∈ db.adminLogs, env.now - daysOld * msPerDay ≤ e.timestamp →
      e ∈ (clearOldLogs env adminUid daysOld db).2.adminLogs := by
  have h2 : (clearOldLogs env adminUid daysOld db).2.adminLogs =
      db.adminLogs.filter
        (fun e => !decide (e.timestamp < env.now - daysOld * msPerDay)) ++
        [mkLogEntry env adminUid "CLEAR_OLD_LOGS"
          [("daysOld", .num daysOld),
           ("count", .num (db.adminLogs.filter
             (fun e => decide (e.timestamp < env.now - daysOld * msPerDay))).length)]] := by
    simp [clearOldLogs, hinit, afterLog_eq,
          logAdminAction_logs_append _ _ _ _ _ hinit hlog]
  refine ⟨by simp [clearOldLogs, hinit, afterLog_eq], h2, ?_⟩
  intro e he hge
  rw [h2]
  refine List.mem_append_left _ ?_
  rw [List.mem_filter]
  exact ⟨he, by simpa using Nat.not_lt.mpr hge⟩

/-- Witness for C8 at concrete inputs: of the two stored entries only the
stale one is deleted, the count is 1, and the boundary entry survives. -/
theorem clearOldLogs_strict_cutoff_witness :
    (clearOldLogs sampleEnv "admin1" 30 logsDB).1 = .ok 1 ∧
    boundaryLog ∈ (clearOldLogs sampleEnv "admin1" 30 logsDB).2.adminLogs :=
  ⟨by rw [(clearOldLogs_strict_cutoff sampleEnv "admin1" 30 logsDB rfl rfl).1]; rfl,
   (clearOldLogs_strict_cutoff sampleEnv "admin1" 30 logsDB rfl rfl).2.2
     boundaryLog (by decide) (by decide)⟩

/-- C9: a license document whose `valid` field is absent is treated as
valid everywhere: `getAllLicenses` reports it with `valid=true`,
`getSystemStats` counts it in `activeLicenses` (removing it lowers the
count by one), and `purgeInvalidLicenses` never deletes it. -/
theorem absent_valid_is_valid (env : Env) (adminUid : String) (limit : Nat)
    (db : DB) (k : String) (d : LicenseDoc)
    (hinit : env.dbInit = true) (hd : d.valid = none)
    (hmem : (k, d) ∈ db.licenses.take limit) :
    (∃ views, (getAllLicenses env limit db).1 = .ok views ∧
       licenseView k d ∈ views ∧ (licenseView k d).valid = true) ∧
    (∀ pre post, db.licenses = pre ++ (k, d) :: post →
       statsActive (getSystemStats env db) =
         (statsActive (getSystemStats env { db with licenses := pre ++ post })).map
           (fun c => c + 1)) ∧
    (k, d) ∈ (purgeInvalidLicenses env adminUid db).2.licenses := by
  refine ⟨?_, ?_, ?_⟩
  · refine ⟨(db.licenses.take limit).map (fun p => licenseView p.1 p.2),
      by simp [getAllLicenses, hinit], ?_, by simp [licenseView, hd]⟩
    exact List.mem_map.mpr ⟨(k, d), hmem, rfl⟩
  · intro pre post hsplit
    simp [statsActive, getSystemStats, hinit, hsplit, List.filter_append, hd]
    omega
  · have hmem' : (k, d) ∈ db.licenses := List.mem_of_mem_take hmem
    have hp : (purgeInvalidLicenses env adminUid db).2.licenses =
        db.licenses.filter (fun p => !(p.2.valid == some false)) := by
      simp [purgeInvalidLicenses, hinit, afterLog_eq, logAdminAction_licenses]
    rw [hp, List.mem_filter]
    exact ⟨hmem', by simp [hd]⟩

/-- Witness for C9 at concrete inputs: the `valid`-absent license `K1` of
the sample store survives a purge. -/
theorem absent_valid_is_valid_witness :
    ("K1", licAbsent) ∈ (purgeInvalidLicenses sampleEnv "admin1" sampleDB).2.licenses :=
  (absent_valid_is_valid sampleEnv "admin1" 100 sampleDB "K1" licAbsent
    rfl rfl (by decide)).2.2

/-! ### Characterization of the decimal rendering used in license keys -/

/-- Unfolding of the fuel-based `Nat.toDigitsCore` at base 10, with
sufficient fuel, into the decimal digit list of `Nat.digits`. -/
theorem toDigitsCore_eq_digits (f : Nat) :
    ∀ (n : Nat) (acc : List Char), n < f →
      Nat.toDigitsCore 10 f n acc =
        (if n = 0 then ['0']
         else (Nat.digits 10 n).reverse.map Nat.digitChar) ++ acc := by
  induction f with
  | zero => intro n acc h; omega
  | succ f ih =>
    intro n acc h
    by_cases h0 : n / 10 = 0
    · have hn10 : n < 10 := by omega
      by_cases hz : n = 0
      · subst hz
        simp [Nat.toDigitsCore, Nat.digitChar]
      · have hdig : Nat.digits 10 n = [n] := by
          rw [Nat.digits_def' (by norm_num : (1:Nat) < 10) (Nat.pos_of_ne_zero hz),
              Nat.mod_eq_of_lt hn10, h0]
          simp
        simp [Nat.toDigitsCore, h0, hz, hdig, Nat.mod_eq_of_lt hn10]
    · have hn : n ≠ 0 := by
        intro hz
        subst hz
        simp at h0
      have hlt : n / 10 < f := by
        have := Nat.div_lt_self (Nat.pos_of_ne_zero hn) (by norm_num : 1 < 10)
        omega
      have hrec := ih (n / 10) (Nat.digitChar (n % 10) :: acc) hlt
      simp only [Nat.toDigitsCore, h0, if_false]
      rw [hrec]
      rw [Nat.digits_def' (by norm_num : (1:Nat) < 10) (Nat.pos_of_ne_zero hn)]
      simp [h0, hn, List.append_assoc]

/-- The characters of `Nat.repr`. -/
theorem natRepr_data (n : Nat) :
    (Nat.repr n).data =
      (if n = 0 then ['0']
       else (Nat.digits 10 n).reverse.map Nat.digitChar) := by
  have h := toDigitsCore_eq_digits (n + 1) n [] (Nat.lt_succ_self n)
  unfold Nat.repr Nat.toDigits
  rw [h]
  simp [List.asString]

/-- `Nat.digitChar` is injective on decimal digits. -/
theorem digitChar_injOn : ∀ d₁ < 10, ∀ d₂ < 10,
    Nat.digitChar d₁ = Nat.digitChar d₂ → d₁ = d₂ := by decide

/-- Decimal digits render to decimal digit characters. -/
theorem digitChar_lt_ten_mem : ∀ d < 10, Nat.digitChar d ∈ "0123456789".data := by
  decide

/-- Mapping `Nat.digitChar` over lists of decimal digits is injective. -/
theorem map_digitChar_inj : ∀ (l₁ l₂ : List Nat),
    (∀ d ∈ l₁, d < 10) → (∀ d ∈ l₂, d < 10) →
    l₁.map Nat.digitChar = l₂.map Nat.digitChar → l₁ = l₂ := by
  intro l₁
  induction l₁ with
  | nil =>
    intro l₂ _ _ h
    cases l₂ with
    | nil => rfl
    | cons b t => simp at h
  | cons a t ih =>
    intro l₂ h1 h2 h
    cases l₂ with
    | nil => simp at h
    | cons b t2 =>
      simp only [List.map_cons, List.cons.injEq] at h
      have hab : a = b :=
        digitChar_injOn a (h1 a (by simp)) b (h2 b (by simp)) h.1
      have ht : t = t2 :=
        ih t2 (fun d hd => h1 d (by simp [hd])) (fun d hd => h2 d (by simp [hd])) h.2
      rw [hab, ht]

/-- `Nat.repr` is injective. -/
theorem natRepr_inj (m n : Nat) (h : Nat.repr m = Nat.repr n) : m = n := by
  have hd : (Nat.repr m).data = (Nat.repr n).data := by rw [h]
  rw [natRepr_data, natRepr_data] at hd
  have hmem : ∀ k : Nat, ∀ d ∈ (Nat.digits 10 k).reverse, d < 10 := by
    intro k d hdm
    exact Nat.digits_lt_base (by norm_num) (List.mem_reverse.mp hdm)
  by_cases hm : m = 0 <;> by_cases hn : n = 0
  · rw [hm, hn]
  · exfalso
    simp only [hm, if_true, hn, if_false] at hd
    have h0 : ([0] : List Nat) = (Nat.digits 10 n).reverse := by
      refine map_digitChar_inj [0] _ (by simp) (hmem n) ?_
      simpa using hd
    have hdig : Nat.digits 10 n = [0] := by
      have := congrArg List.reverse h0
      simpa using this.symm
    have := Nat.ofDigits_digits 10 n
    rw [hdig] at this
    simp [Nat.ofDigits] at this
    exact hn this.symm
  · exfalso
    simp only [hm, if_false, hn, if_true] at hd
    have h0 : ([0] : List Nat) = (Nat.digits 10 m).reverse := by
      refine map_digitChar_inj [0] _ (by simp) (hmem m) ?_
      simpa using hd.symm
    have hdig : Nat.digits 10 m = [0] := by
      have := congrArg List.reverse h0
      simpa using this.symm
    have := Nat.ofDigits_digits 10 m
    rw [hdig] at this
    simp [Nat.ofDigits] at this
    exact hm this.symm
  · simp only [hm, if_false, hn, if_false] at hd
    have hrev : (Nat.digits 10 m).reverse = (Nat.digits 10 n).reverse :=
      map_digitChar_inj _ _ (hmem m) (hmem n) hd
    have hdig : Nat.digits 10 m = Nat.digits 10 n := by
      have := congrArg List.reverse hrev
      simpa using this
    have h1 := Nat.ofDigits_digits 10 m
    have h2 := Nat.ofDigits_digits 10 n
    rw [hdig] at h1
    rw [h2] at h1
    exact h1.symm

/-- `Nat.repr` produces only decimal digit characters; in particular no
dash. -/
theorem natRepr_no_dash (n : Nat) : '-' ∉ (Nat.repr n).data := by
  rw [natRepr_data]
  by_cases hz : n = 0
  · simp [hz]
  · simp only [hz, if_false]
    intro hmem
    obtain ⟨d, hd, hEq⟩ := List.mem_map.mp hmem
    have hlt : d < 10 := Nat.digits_lt_base (by norm_num) (List.mem_reverse.mp hd)
    have : Nat.digitChar d ∈ "0123456789".data := digitChar_lt_ten_mem d hlt
    rw [hEq] at this
    simp at this

/-- Uppercasing a base-36 digit lands in the uppercase alphanumeric
alphabet. -/
theorem base36_toUpper_mem : ∀ c ∈ base36Chars, isUpperAlnum c.toUpper = true := by
  decide

/-- A list is determined by its two halves around a separator occurring in
neither left half. -/
theorem append_sep_inj (sep : Char) :
    ∀ (s₁ s₂ t₁ t₂ : List Char), sep ∉ s₁ → sep ∉ s₂ →
      s₁ ++ sep :: t₁ = s₂ ++ sep :: t₂ → s₁ = s₂ ∧ t₁ = t₂ := by
  intro s₁
  induction s₁ with
  | nil =>
    intro s₂ t₁ t₂ _ h2 h
    cases s₂ with
    | nil => simpa using h
    | cons b s₂ =>
      simp only [List.nil_append, List.cons_append, List.cons.injEq] at h
      exact absurd (by rw [h.1]; exact List.mem_cons_self b s₂) h2
  | cons a s₁ ih =>
    intro s₂ t₁ t₂ h1 h2 h
    cases s₂ with
    | nil =>
      simp only [List.cons_append, List.nil_append, List.cons.injEq] at h
      exact absurd (by rw [h.1]; exact List.mem_cons_self sep s₁) h1
    | cons b s₂ =>
      simp only [List.cons_append, List.cons.injEq] at h
      obtain ⟨hab, hrest⟩ := h
      have hr := ih s₂ t₁ t₂ (fun hm => h1 (List.mem_cons_of_mem _ hm))
        (fun hm => h2 (List.mem_cons_of_mem _ hm)) hrest
      exact ⟨by rw [hab, hr.1], hr.2⟩

/-- The suffix characters of a valid random rendering are uppercase
alphanumeric. -/
theorem licenseSuffix_upper (r : String) (h : isJsRandomBase36 r = true) :
    ∀ c ∈ (licenseSuffix r).data, isUpperAlnum c = true := by
  intro c hc
  simp only [licenseSuffix, jsToUpperCase, jsSubstr] at hc
  obtain ⟨c0, hc0, hup⟩ := List.mem_map.mp hc
  have hc0' : c0 ∈ r.data.drop 2 := List.mem_of_mem_take hc0
  unfold isJsRandomBase36 at h
  split at h
  next heq =>
    rw [heq] at hc0'
    simp at hc0'
  next d ds heq =>
    rw [heq] at hc0'
    simp only [List.drop_succ_cons, List.drop_zero] at hc0'
    have hbase : isBase36Digit c0 = true := by
      have := List.all_eq_true.mp h c0 hc0'
      simpa using this
    have hmemb : c0 ∈ base36Chars := by
      simpa [isBase36Digit] using hbase
    rw [← hup]
    exact base36_toUpper_mem c0 hmemb
  next =>
    simp at h

/-- The suffix is at most 9 characters. -/
theorem licenseSuffix_len (r : String) : (licenseSuffix r).length ≤ 9 := by
  simp only [licenseSuffix, jsToUpperCase, jsSubstr, String.length]
  simp [List.length_take]

/-- No dash occurs in the rendered timestamp. -/
theorem toStringNat_no_dash (n : Nat) : '-' ∉ (toString n).data :=
  natRepr_no_dash n

/-- The decomposition of a generated key around its two fixed dashes is
unique, provided neither middle part holds a dash. -/
theorem key_decomp_unique (a₁ a₂ b₁ b₂ : String)
    (h1 : '-' ∉ a₁.data) (h2 : '-' ∉ a₂.data)
    (h : "LIC-" ++ a₁ ++ "-" ++ b₁ = "LIC-" ++ a₂ ++ "-" ++ b₂) :
    a₁ = a₂ ∧ b₁ = b₂ := by
  have hd := congrArg String.data h
  simp only [String.data_append] at hd
  simp only [List.append_assoc, List.singleton_append, List.cons_append,
    List.nil_append, List.cons.injEq, true_and] at hd
  obtain ⟨hA, hB⟩ := append_sep_inj '-' _ _ _ _ h1 h2 hd
  exact ⟨String.ext hA, String.ext hB⟩

/-- Generated keys differ whenever the millisecond timestamps differ or
the uppercased random suffixes differ. -/
theorem mkLicenseKey_inj (now₁ now₂ : Nat) (r₁ r₂ : String)
    (hne : now₁ ≠ now₂ ∨ licenseSuffix r₁ ≠ licenseSuffix r₂) :
    mkLicenseKey now₁ r₁ ≠ mkLicenseKey now₂ r₂ := by
  intro hk
  unfold mkLicenseKey at hk
  obtain ⟨hts, hsuf⟩ := key_decomp_unique _ _ _ _
    (toStringNat_no_dash now₁) (toStringNat_no_dash now₂) hk
  rcases hne with hne | hne
  · exact hne (natRepr_inj now₁ now₂ hts)
  · exact hne hsuf

/-- C4 counterexample: the `Math.random()` draw rendering as `"0.i"` (a
single-digit base-36 fraction, as for the draw 0.5) is a possible input,
and the key generated from it has a 1-character suffix, so it does not
match the documented exactly-9-character format. -/
theorem createLicense_key_counterexample :
    isJsRandomBase36 "0.i" = true ∧
    mkLicenseKey 1700000000000 "0.i" = "LIC-1700000000000-I" ∧
    ¬ claimedLicenseKeyFormat (mkLicenseKey 1700000000000 "0.i") := by
  refine ⟨rfl, rfl, ?_⟩
  rintro ⟨ts, suf, hEq, hne, hdig, hlen, hsup⟩
  have hcan : mkLicenseKey 1700000000000 "0.i" =
      "LIC-" ++ "1700000000000" ++ "-" ++ "I" := rfl
  rw [hcan] at hEq
  have hd1 : '-' ∉ ("1700000000000" : String).data := by decide
  have hd2 : '-' ∉ ts.data := by
    intro hm
    exact absurd (hdig '-' hm) (by decide)
  obtain ⟨hts, hsuf⟩ := key_decomp_unique "1700000000000" ts "I" suf hd1 hd2 hEq
  rw [← hsuf] at hlen
  exact absurd hlen (by decide)

/-- C4 amended: every generated key is `LIC-`, the decimal millisecond
timestamp, a dash, and an uppercase alphanumeric suffix of at most (not
exactly) 9 characters; keys of distinct calls are pairwise distinct
whenever their timestamps or their uppercased random suffixes differ —
unconditional distinctness is not guaranteed, since a call repeating both
the millisecond and the random draw repeats the key. -/
theorem createLicense_key_spec (now : Nat) (r : String)
    (h : isJsRandomBase36 r = true) :
    mkLicenseKey now r = "LIC-" ++ toString now ++ "-" ++ licenseSuffix r ∧
    (licenseSuffix r).length ≤ 9 ∧
    (∀ c ∈ (licenseSuffix r).data, isUpperAlnum c = true) ∧
    ∀ now₂ r₂, isJsRandomBase36 r₂ = true →
      now ≠ now₂ ∨ licenseSuffix r ≠ licenseSuffix r₂ →
      mkLicenseKey now r ≠ mkLicenseKey now₂ r₂ :=
  ⟨rfl, licenseSuffix_len r, licenseSuffix_upper r h,
   fun now₂ r₂ _ hne => mkLicenseKey_inj now now₂ r r₂ hne⟩

/-- Witness for the amended C4 at concrete inputs: two sequential calls one
millisecond apart yield distinct keys. -/
theorem createLicense_key_spec_witness :
    mkLicenseKey 1700000000000 "0.abc123xyz" ≠
      mkLicenseKey 1700000000001 "0.abc123xyz" :=
  (createLicense_key_spec 1700000000000 "0.abc123xyz" (by decide)).2.2.2
    1700000000001 "0.abc123xyz" (by decide) (Or.inl (by decide))
